import Mathlib

/-!
# Verification of `usbcam.h` (single-header V4L2 camera capture library)

Shallow embedding of the buffer-lifecycle state machine and the
drain-to-latest frame acquisition protocol of `src/usbcam.h`.

The program keeps process-wide state: four lifecycle flags
(`usbcam_has_fd`, `usbcam_has_mmap`, `usbcam_has_stream`,
`usbcam_has_dqbuf`), a file descriptor, a buffer count, two fixed
arrays of 128 entries (`usbcam_buffer_start`, `usbcam_buffer_length`)
holding the mmap base address and mapped length per pool slot, and one
`v4l2_buffer` record (`usbcam_dqbuf`) for the currently locked frame.

The V4L2 driver is an external collaborator.  We model its visible
interactions as explicit inputs: the queue of completed buffers a
`VIDIOC_DQBUF` would return (in completion order), the stream of
`select` results consumed by the drain loop of `usbcam_lock`, and the
responses of the init-time ioctls.  Driver-side ioctl failures (other
than `EINTR`/`EAGAIN`, which `usbcam_ioctl` retries and which are
invisible at this level) would terminate the process inside
`usbcam_ioctl`; following the spec's scope (§1, the driver is a
capability, not part of the core), ioctl calls themselves are modelled
as succeeding, while the program's own `usbcam_assert` checks — which
depend only on program state — are modelled exactly: an
`Except.error`/fatal outcome stands for `exit(EXIT_FAILURE)`.

Pointers are modelled as natural-number addresses; a C null pointer for
the optional `timestamp` out-parameter is modelled by a Boolean
`ts_null` flag on `usbcam_lock` (the public declaration defaults the
parameter to `0`).
-/

/-- `struct timeval` capture timestamp (seconds, microseconds). -/
structure Timeval where
  tv_sec : Int
  tv_usec : Int
deriving Repr, DecidableEq, Inhabited

/-- The fields of a `v4l2_buffer` that `usbcam.h` reads: the pool slot
index, the driver-reported used byte count, and the capture timestamp. -/
structure V4l2Buf where
  index : Nat
  bytesused : Nat
  timestamp : Timeval
deriving Repr, DecidableEq, Inhabited

/-- A fatal outcome: `usbcam_assert` printed a message and called
`exit(EXIT_FAILURE)`. -/
inductive Fatal where
  | assertFail (msg : String)
deriving Repr, DecidableEq

/-- `#define usbcam_max_buffers 128` (as a C `int`, compared against
`opt.buffers`). -/
def usbcam_max_buffers : Int := 128

/-- The process-wide mutable state of `usbcam.h` (the static variables
at lines 75–83). -/
structure UsbcamState where
  has_mmap : Bool
  has_dqbuf : Bool
  has_fd : Bool
  has_stream : Bool
  fd : Int
  buffers : Nat
  buffer_start : List Nat
  buffer_length : List Nat
  dqbuf : V4l2Buf
deriving Repr, DecidableEq, Inhabited

/-- The initial (static-zero-initialised) state: all flags clear,
`usbcam_fd = 0`, `usbcam_buffers = 0`, both arrays all zero. -/
def usbcam_initial : UsbcamState :=
  { has_mmap := false
    has_dqbuf := false
    has_fd := false
    has_stream := false
    fd := 0
    buffers := 0
    buffer_start := List.replicate 128 0
    buffer_length := List.replicate 128 0
    dqbuf := default }

/-- The `usbcam_assert(usbcam_has_fd, ...)` guard inside `usbcam_ioctl`:
every ioctl call first checks that the device has been opened.  The
ioctl itself is an external driver capability modelled as succeeding. -/
def usbcam_ioctl_check (st : UsbcamState) : Except Fatal Unit :=
  if st.has_fd then .ok ()
  else .error (.assertFail "The camera device has not been opened yet!")

/-- The four teardown actions `usbcam_cleanup` can perform, in the order
they appear in the code. -/
inductive CleanupStep where
  | requeue
  | unmapPool
  | streamOff
  | closeFd
deriving Repr, DecidableEq

/-- `usbcam_cleanup` (lines 100–134): requeue the outstanding dequeued
buffer, unmap the pool, turn off streaming, close the device — each
step guarded by its flag and clearing that flag.  Besides the new state
we return the list of steps actually performed, in execution order.
`munmap` and `close` do not reset `usbcam_buffer_start`,
`usbcam_buffer_length`, `usbcam_buffers` or `usbcam_fd`, and the code
does not either. -/
def usbcam_cleanup (st : UsbcamState) : Except Fatal (UsbcamState × List CleanupStep) :=
  -- return any buffers we have dequeued (VIDIOC_QBUF via usbcam_ioctl)
  match (if st.has_dqbuf then
           match usbcam_ioctl_check st with
           | .error e => Except.error e
           | .ok () => Except.ok ({ st with has_dqbuf := false }, [CleanupStep.requeue])
         else Except.ok (st, [])) with
  | .error e => .error e
  | .ok (st1, steps1) =>
    -- free buffers (munmap each mapped region)
    let (st2, steps2) :=
      if st1.has_mmap then ({ st1 with has_mmap := false }, steps1 ++ [CleanupStep.unmapPool])
      else (st1, steps1)
    -- turn off streaming (VIDIOC_STREAMOFF via usbcam_ioctl)
    match (if st2.has_stream then
             match usbcam_ioctl_check st2 with
             | .error e => Except.error e
             | .ok () => Except.ok ({ st2 with has_stream := false },
                                    steps2 ++ [CleanupStep.streamOff])
           else Except.ok (st2, steps2)) with
    | .error e => .error e
    | .ok (st3, steps3) =>
      -- close the file descriptor
      if st3.has_fd then .ok ({ st3 with has_fd := false }, steps3 ++ [CleanupStep.closeFd])
      else .ok (st3, steps3)

/-- `usbcam_unlock` (lines 218–225): if a frame is locked, requeue its
buffer (`VIDIOC_QBUF` through `usbcam_ioctl`, whose open-device assert
can fire) and clear the lock flag; otherwise do nothing at all. -/
def usbcam_unlock (st : UsbcamState) : Except Fatal UsbcamState :=
  if st.has_dqbuf then
    match usbcam_ioctl_check st with
    | .error e => .error e
    | .ok () => .ok { st with has_dqbuf := false }
  else .ok st

/-- The drain loop of `usbcam_lock` (lines 243–261).  `held` is the
buffer currently dequeued, `ready` the driver's queue of further
completed buffers in completion order, `polls` the successive results
of the zero-timeout `select` calls (1 = data pending, 0 = nothing
pending, -1 = error), `req` an accumulator of requeued buffers in
reverse.  An exhausted `polls` list behaves like `select` reporting
nothing pending.  Result: the finally held buffer, the buffers requeued
during the drain (in requeue order), and the completed buffers still
undequeued; `none` means the loop issued a `VIDIOC_DQBUF` with no
completed buffer available, which blocks.  Note the loop exits on every
`select` result other than 1 — including the error result -1. -/
def usbcam_drain : V4l2Buf → List V4l2Buf → List Int → List V4l2Buf →
    Option (V4l2Buf × List V4l2Buf × List V4l2Buf)
  | held, ready, [], req => some (held, req.reverse, ready)
  | held, ready, r :: polls, req =>
    if r = 1 then
      match ready with
      | [] => none
      | b :: rest => usbcam_drain b rest polls (held :: req)
    else some (held, req.reverse, ready)

/-- Outcome of a `usbcam_lock` call.  `fatal` is a failed
`usbcam_assert`; `blocked` means `VIDIOC_DQBUF` was issued with no
completed buffer available; `nullDeref` is the write through a null
`timestamp` pointer at line 264; `ok st requeued remaining data size
timestamp` gives the post state, the buffers requeued during the drain,
the completed buffers left undequeued, and the three outputs written
through the out-parameters. -/
inductive LockResult where
  | fatal (msg : String)
  | blocked
  | nullDeref
  | ok (st : UsbcamState) (requeued remaining : List V4l2Buf)
       (data size : Nat) (timestamp : Timeval)
deriving Repr, DecidableEq

/-- `usbcam_lock` (lines 227–270).  The four `usbcam_assert`
preconditions are checked first, in source order.  Then one buffer is
dequeued (blocking if none is completed), the drain loop runs, and the
outputs are written: `*timestamp = buf.timestamp` first (line 264 —
unconditional, so a null `timestamp` pointer is dereferenced),
then `*data = usbcam_buffer_start[buf.index]` and
`*size = buf.bytesused`; finally the winning buffer is recorded in
`usbcam_dqbuf` and `usbcam_has_dqbuf` is set. -/
def usbcam_lock (st : UsbcamState) (ready : List V4l2Buf) (polls : List Int)
    (ts_null : Bool) : LockResult :=
  if st.has_dqbuf then .fatal "You forgot to unlock the previous frame"
  else if !st.has_fd then .fatal "Camera device not open"
  else if !st.has_mmap then .fatal "Buffers not allocated"
  else if !st.has_stream then .fatal "Stream not begun"
  else
    match ready with
    | [] => .blocked
    | b :: rest =>
      match usbcam_drain b rest polls [] with
      | none => .blocked
      | some (buf, requeued, remaining) =>
        if ts_null then .nullDeref
        else .ok { st with dqbuf := buf, has_dqbuf := true }
                requeued remaining
                (st.buffer_start.getD buf.index 0) buf.bytesused buf.timestamp

/-- `struct usbcam_opt_t` (lines 23–44): device name, requested buffer
count (a C `int`), pixel format code, width, height. -/
structure usbcam_opt_t where
  device_name : String
  buffers : Int
  pixel_format : Nat
  width : Nat
  height : Nat
deriving Repr, DecidableEq

/-- The driver's responses to the ioctls issued by `usbcam_init`:
the result of `v4l2_open` (negative on failure), the pixel
format/width/height the driver actually granted in `VIDIOC_S_FMT`, the
buffer count granted by `VIDIOC_REQBUFS`, and per pool slot the
`VIDIOC_QUERYBUF` length, the `mmap` base address and whether the
`mmap` succeeded (`false` models `MAP_FAILED`). -/
structure DriverInit where
  open_fd : Int
  granted_pixelformat : Nat
  granted_width : Nat
  granted_height : Nat
  granted_count : Nat
  buf_lengths : List Nat
  buf_addrs : List Nat
  mmap_ok : List Bool
deriving Repr, DecidableEq

/-- The buffer-allocation loop of `usbcam_init` (lines 174–194),
iterating slot `i` for `k` more slots: query the buffer length, store
it in `usbcam_buffer_length[i]`, `mmap` the region and store the base
address in `usbcam_buffer_start[i]`, and die if the `mmap` failed. -/
def usbcam_alloc_bufs (drv : DriverInit) :
    Nat → Nat → List Nat × List Nat → Except Fatal (List Nat × List Nat)
  | _, 0, arrs => .ok arrs
  | i, k + 1, (starts, lens) =>
    let lens' := lens.set i (drv.buf_lengths.getD i 0)
    let starts' := starts.set i (drv.buf_addrs.getD i 0)
    if drv.mmap_ok.getD i false then usbcam_alloc_bufs drv (i + 1) k (starts', lens')
    else .error (.assertFail "Failed to allocate memory for buffers")

/-- `usbcam_init` (lines 136–216): unconditionally run a full
`usbcam_cleanup`, check the requested buffer count, open the device,
negotiate the format (dying on any mismatch), request the buffers
(dying on a count mismatch), run the allocation loop, record the
buffer count, set the mmap flag, start streaming, set the stream flag,
and queue every buffer (ioctls on the already-open descriptor, no
further state change). -/
def usbcam_init (st : UsbcamState) (opt : usbcam_opt_t) (drv : DriverInit) :
    Except Fatal UsbcamState :=
  match usbcam_cleanup st with
  | .error e => .error e
  | .ok (st0, _) =>
    if !(opt.buffers ≤ usbcam_max_buffers) then
      .error (.assertFail "You requested too many buffers")
    else if !(opt.buffers > 0) then
      .error (.assertFail "You need atleast one buffer")
    else if !(drv.open_fd ≥ 0) then
      .error (.assertFail "Failed to open device")
    else
      let st1 := { st0 with fd := drv.open_fd, has_fd := true }
      if !(drv.granted_pixelformat = opt.pixel_format) then
        .error (.assertFail "Did not get the requested format")
      else if !(drv.granted_width = opt.width) then
        .error (.assertFail "Did not get the requested width")
      else if !(drv.granted_height = opt.height) then
        .error (.assertFail "Did not get the requested height")
      else if !(drv.granted_count = opt.buffers.toNat) then
        .error (.assertFail "Did not get the requested number of buffers")
      else
        match usbcam_alloc_bufs drv 0 opt.buffers.toNat
                (st1.buffer_start, st1.buffer_length) with
        | .error e => .error e
        | .ok (starts, lens) =>
          .ok { st1 with
                  buffer_start := starts
                  buffer_length := lens
                  buffers := opt.buffers.toNat
                  has_mmap := true
                  has_stream := true }

/-!
## System model

To reason about reachable states we pair the program state with the
driver-visible buffer bookkeeping: `ready` is the driver's queue of
completed buffers awaiting `VIDIOC_DQBUF` (in completion order) and
`owned` is the list of buffers currently dequeued by the consumer and
not yet requeued (kernel-buffer ownership tokens).  A driver event
appends a completed buffer to `ready`; it only fires while streaming
and, per the V4L2 driver contract, carries a valid pool index and a
used-byte count within that slot's mapped length.
-/

/-- Combined program + driver-queue state. -/
structure Sys where
  cam : UsbcamState
  ready : List V4l2Buf
  owned : List V4l2Buf
deriving Repr, DecidableEq

/-- The quiescent state before any call: zero-initialised statics, no
completed buffers, nothing consumer-owned. -/
def Sys.start : Sys := ⟨usbcam_initial, [], []⟩

/-- The events that drive the system: the four public operations (with
their external inputs) and the driver completing a frame. -/
inductive Op where
  | opInit (opt : usbcam_opt_t) (drv : DriverInit)
  | opCleanup
  | opLock (polls : List Int) (ts_null : Bool)
  | opUnlock
  | frameReady (b : V4l2Buf)
deriving Repr

/-- One step of the system.  `none` means there is no successor state:
the process exited via a failed assert, blocked forever in
`VIDIOC_DQBUF`, crashed on the null timestamp write, or the driver
event was impossible (not streaming, or outside the driver contract).

`opInit` empties `ready` and `owned`: the embedded cleanup requeues any
owned buffer and `VIDIOC_REQBUFS`/`VIDIOC_STREAMON` reset the driver
queues.  `opCleanup` likewise requeues the locked buffer (if any) and
`VIDIOC_STREAMOFF` drops all completed-but-undequeued buffers.
`opLock` nets to: the drained-and-requeued buffers return to the
driver, the winning buffer joins `owned`, the undequeued completed
buffers remain `ready`.  `opUnlock` requeues the recorded `dqbuf` when
locked. -/
def Sys.step (s : Sys) : Op → Option Sys
  | .opInit opt drv =>
    match usbcam_init s.cam opt drv with
    | .error _ => none
    | .ok st' => some ⟨st', [], []⟩
  | .opCleanup =>
    match usbcam_cleanup s.cam with
    | .error _ => none
    | .ok (st', _) =>
      some ⟨st', [], if s.cam.has_dqbuf then s.owned.erase s.cam.dqbuf else s.owned⟩
  | .opLock polls tn =>
    match usbcam_lock s.cam s.ready polls tn with
    | .ok st' _requeued remaining _d _sz _ts =>
      some ⟨st', remaining, s.owned ++ [st'.dqbuf]⟩
    | _ => none
  | .opUnlock =>
    match usbcam_unlock s.cam with
    | .error _ => none
    | .ok st' =>
      some ⟨st', s.ready, if s.cam.has_dqbuf then s.owned.erase s.cam.dqbuf else s.owned⟩
  | .frameReady b =>
    if s.cam.has_stream ∧ b.index < s.cam.buffers ∧
        b.bytesused ≤ s.cam.buffer_length.getD b.index 0 then
      some ⟨s.cam, s.ready ++ [b], s.owned⟩
    else none

/-- Run a list of events from a state, dying on the first impossible
step. -/
def Sys.run : Sys → List Op → Option Sys
  | s, [] => some s
  | s, op :: ops =>
    match s.step op with
    | none => none
    | some s' => s'.run ops

/-- A state is reachable when some event sequence leads to it from the
quiescent start state. -/
def Sys.Reachable (s : Sys) : Prop := ∃ ops, Sys.run Sys.start ops = some s

/-- The system invariant: the lifecycle flags respect the acquisition
order (a locked frame implies streaming, streaming implies a mapped
pool, a mapped pool implies an open device); the consumer owns exactly
the recorded `dqbuf` when the lock flag is set and nothing otherwise;
and every completed buffer obeys the driver contract (valid pool slot,
used bytes within the slot's mapped length). -/
def SysInv (s : Sys) : Prop :=
  (s.cam.has_dqbuf → s.cam.has_stream = true) ∧
  (s.cam.has_stream → s.cam.has_mmap = true) ∧
  (s.cam.has_mmap → s.cam.has_fd = true) ∧
  (if s.cam.has_dqbuf then s.owned = [s.cam.dqbuf] else s.owned = []) ∧
  (∀ b ∈ s.ready, b.index < s.cam.buffers ∧
      b.bytesused ≤ s.cam.buffer_length.getD b.index 0)

/-- Whether `usbcam_cleanup` completes without a fatal outcome. -/
def cleanupSucceeds (st : UsbcamState) : Bool :=
  match usbcam_cleanup st with
  | .ok _ => true
  | .error _ => false

/-- The observable session state: the four lifecycle flags plus the
driver-queue bookkeeping.  The residual values of `usbcam_fd`,
`usbcam_buffers` and the two arrays are not observable through the
public operations once the corresponding flags are clear: every
operation branches on the flags first, and `usbcam_init` overwrites
those fields before any of them is read again. -/
def Sys.observable (s : Sys) :
    Bool × Bool × Bool × Bool × List V4l2Buf × List V4l2Buf :=
  (s.cam.has_fd, s.cam.has_mmap, s.cam.has_stream, s.cam.has_dqbuf, s.ready, s.owned)

/-!
### Concrete example session (used to witness the theorems)

A two-buffer configuration, a driver that grants exactly what is
requested (fd 3, buffer lengths 100 and 200 mapped at 4096 and 8192),
and two completed frames.
-/

/-- Example configuration: two buffers, format code 77, 640×480. -/
def wOpt : usbcam_opt_t :=
  { device_name := "/dev/video0", buffers := 2, pixel_format := 77,
    width := 640, height := 480 }

/-- Example driver responses granting exactly the requested
configuration. -/
def wDrv : DriverInit :=
  { open_fd := 3, granted_pixelformat := 77, granted_width := 640,
    granted_height := 480, granted_count := 2,
    buf_lengths := [100, 200], buf_addrs := [4096, 8192],
    mmap_ok := [true, true] }

/-- Program state after `usbcam_init usbcam_initial wOpt wDrv`. -/
def wInitCam : UsbcamState :=
  { has_mmap := true
    has_dqbuf := false
    has_fd := true
    has_stream := true
    fd := 3
    buffers := 2
    buffer_start := ((List.replicate 128 0).set 0 4096).set 1 8192
    buffer_length := ((List.replicate 128 0).set 0 100).set 1 200
    dqbuf := default }

/-- First completed frame: slot 0, 50 bytes used. -/
def wBuf0 : V4l2Buf := { index := 0, bytesused := 50, timestamp := ⟨5, 0⟩ }

/-- Second completed frame: slot 1, 150 bytes used. -/
def wBuf1 : V4l2Buf := { index := 1, bytesused := 150, timestamp := ⟨10, 0⟩ }

/-- System state after init and two frame completions. -/
def wReady : Sys := ⟨wInitCam, [wBuf0, wBuf1], []⟩

/-- Program state holding `wBuf0` locked. -/
def wLock0Cam : UsbcamState := { wInitCam with dqbuf := wBuf0, has_dqbuf := true }

/-- Program state holding `wBuf1` locked. -/
def wLock1Cam : UsbcamState := { wInitCam with dqbuf := wBuf1, has_dqbuf := true }

/-- System state after locking the first completed frame from `wReady`
with no further frames reported pending. -/
def wLocked0 : Sys := ⟨wLock0Cam, [wBuf1], [wBuf0]⟩

/-- Program state after `usbcam_cleanup` from `wInitCam`: only the
flags are cleared. -/
def wCleanCam : UsbcamState :=
  { wInitCam with has_mmap := false, has_stream := false, has_fd := false }

/-- System state after init immediately followed by cleanup. -/
def wAfterInitCleanup : Sys := ⟨wCleanCam, [], []⟩

/-!
## Helper lemmas
-/

/-- A successful `usbcam_cleanup` clears all four lifecycle flags. -/
theorem usbcam_cleanup_flags {st st' : UsbcamState} {steps : List CleanupStep}
    (h : usbcam_cleanup st = .ok (st', steps)) :
    st'.has_dqbuf = false ∧ st'.has_mmap = false ∧
    st'.has_stream = false ∧ st'.has_fd = false := by
  obtain ⟨mm, dq, fd, str, fdv, nb, bs, bl, dqb⟩ := st
  cases dq <;> cases mm <;> cases str <;> cases fd <;>
    simp_all [usbcam_cleanup, usbcam_ioctl_check] <;>
    (obtain ⟨h1, h2⟩ := h
     subst h1
     simp)

/-- Exact behaviour of `usbcam_cleanup` on any state whose flags respect
the acquisition order (a locked frame or an active stream implies an
open device, which is all the embedded `usbcam_ioctl` asserts need):
it succeeds, clears exactly the four flags, leaves every other field
unchanged, and performs the four steps requeue / unmap / stream-off /
close in that order, each present in the trace iff its flag was set. -/
theorem usbcam_cleanup_eq (st : UsbcamState)
    (h1 : st.has_dqbuf = true → st.has_fd = true)
    (h2 : st.has_stream = true → st.has_fd = true) :
    usbcam_cleanup st = .ok
      ({ st with has_dqbuf := false, has_mmap := false,
                 has_stream := false, has_fd := false },
        (if st.has_dqbuf then [CleanupStep.requeue] else []) ++
        (if st.has_mmap then [CleanupStep.unmapPool] else []) ++
        (if st.has_stream then [CleanupStep.streamOff] else []) ++
        (if st.has_fd then [CleanupStep.closeFd] else [])) := by
  obtain ⟨mm, dq, fd, str, fdv, nb, bs, bl, dqb⟩ := st
  cases dq <;> cases mm <;> cases str <;> cases fd <;>
    simp_all [usbcam_cleanup, usbcam_ioctl_check]

/-- The buffer finally held when the drain loop finishes is either the
buffer held at entry or one of the completed buffers dequeued during
the drain. -/
theorem usbcam_drain_mem {held : V4l2Buf} {ready : List V4l2Buf} {polls : List Int}
    {req : List V4l2Buf} {f : V4l2Buf} {r rem : List V4l2Buf}
    (h : usbcam_drain held ready polls req = some (f, r, rem)) :
    f = held ∨ f ∈ ready := by
  induction polls generalizing held ready req with
  | nil =>
    simp [usbcam_drain] at h
    exact Or.inl h.1.symm
  | cons p ps ih =>
    rw [usbcam_drain.eq_def] at h
    simp only [] at h
    by_cases hp : p = 1
    · rw [if_pos hp] at h
      cases ready with
      | nil => cases h
      | cons b rest =>
        rcases ih h with h' | h'
        · exact Or.inr (by simp [h'])
        · exact Or.inr (by simp [h'])
    · rw [if_neg hp] at h
      simp at h
      exact Or.inl h.1.symm

/-- Every completed buffer left undequeued by the drain loop was
already in the completed queue at entry. -/
theorem usbcam_drain_remaining {held : V4l2Buf} {ready : List V4l2Buf} {polls : List Int}
    {req : List V4l2Buf} {f : V4l2Buf} {r rem : List V4l2Buf}
    (h : usbcam_drain held ready polls req = some (f, r, rem)) :
    ∀ b ∈ rem, b ∈ ready := by
  induction polls generalizing held ready req with
  | nil =>
    simp [usbcam_drain] at h
    intro b hb
    exact h.2.2 ▸ hb
  | cons p ps ih =>
    rw [usbcam_drain.eq_def] at h
    simp only [] at h
    by_cases hp : p = 1
    · rw [if_pos hp] at h
      cases ready with
      | nil => cases h
      | cons c rest =>
        intro b hb
        exact List.mem_cons_of_mem c (ih h b hb)
    · rw [if_neg hp] at h
      simp at h
      intro b hb
      exact h.2.2 ▸ hb

/-- Behaviour of the drain loop under a truthful `select`: with `n`
further completed buffers at entry, the zero-timeout `select` reports
data pending exactly `n` times and then reports nothing pending.  The
loop then requeues everything except the most recently completed
buffer, which it ends up holding, and leaves the completed queue
empty. -/
theorem usbcam_drain_truthful (held : V4l2Buf) (rest req : List V4l2Buf) :
    usbcam_drain held rest (List.replicate rest.length 1 ++ [0]) req =
      some (rest.getLastD held, req.reverse ++ (held :: rest).dropLast, []) := by
  induction rest generalizing held req with
  | nil => simp [usbcam_drain]
  | cons b rest ih =>
    rw [List.length_cons, List.replicate_succ, List.cons_append, usbcam_drain]
    rw [if_pos rfl, ih]
    rw [List.getLastD_cons, List.reverse_cons, List.append_assoc, List.singleton_append,
      List.dropLast_cons₂]

/-- Behaviour of the drain loop when the zero-timeout `select` errors
after `k` successful readiness reports: the first `k` iterations each
requeue the held buffer and dequeue the next completed one; the error
result (-1) then exits the `while (r == 1)` loop exactly like "nothing
pending", leaving the loop holding the `(k+1)`-st buffer of the
held-then-completed sequence, with the first `k` requeued and the rest
still undequeued. -/
theorem usbcam_drain_error (ps : List Int) :
    ∀ (k : Nat) (held : V4l2Buf) (rest req : List V4l2Buf), k ≤ rest.length →
    usbcam_drain held rest (List.replicate k 1 ++ (-1 :: ps)) req =
      some ((held :: rest).getD k default,
            req.reverse ++ (held :: rest).take k, rest.drop k) := by
  intro k
  induction k with
  | zero =>
    intro held rest req _
    rw [List.replicate_zero, List.nil_append, usbcam_drain.eq_def]
    norm_num
  | succ k ih =>
    intro held rest req hk
    cases rest with
    | nil => simp at hk
    | cons b rest' =>
      rw [List.replicate_succ, List.cons_append, usbcam_drain]
      rw [if_pos rfl, ih b rest' (held :: req) (by simpa using hk)]
      simp [List.getD_cons_succ, List.take_succ_cons, List.drop_succ_cons,
        List.reverse_cons, List.append_assoc, List.singleton_append]

/-- Inversion of a successful `usbcam_lock`: all four preconditions
held, the timestamp pointer was non-null, one buffer was dequeued and
the drain loop finished on some buffer `f`; the post state sets exactly
the lock flag and the `usbcam_dqbuf` record, and the outputs are `f`'s
pool base address, used-byte count, and timestamp. -/
theorem usbcam_lock_ok_inv {st : UsbcamState} {ready : List V4l2Buf} {polls : List Int}
    {tn : Bool} {st' : UsbcamState} {req rem : List V4l2Buf} {d sz : Nat} {ts : Timeval}
    (h : usbcam_lock st ready polls tn = .ok st' req rem d sz ts) :
    st.has_dqbuf = false ∧ st.has_fd = true ∧ st.has_mmap = true ∧
    st.has_stream = true ∧ tn = false ∧
    ∃ b rest f, ready = b :: rest ∧ usbcam_drain b rest polls [] = some (f, req, rem) ∧
      st' = { st with dqbuf := f, has_dqbuf := true } ∧
      d = st.buffer_start.getD f.index 0 ∧ sz = f.bytesused ∧ ts = f.timestamp := by
  cases hdq : st.has_dqbuf <;> cases hfd : st.has_fd <;> cases hmm : st.has_mmap <;>
    cases hst : st.has_stream <;>
    simp only [usbcam_lock, hdq, hfd, hmm, hst, Bool.not_true, Bool.not_false,
      if_true, if_false, Bool.false_eq_true, ite_true, ite_false] at h <;>
    try cases h
  cases ready with
  | nil =>
    simp only [] at h
    cases h
  | cons b rest =>
    simp only [] at h
    cases hdr : usbcam_drain b rest polls [] with
    | none => rw [hdr] at h; cases h
    | some out =>
      obtain ⟨f, rq, rm⟩ := out
      rw [hdr] at h
      cases tn with
      | true => cases h
      | false =>
        simp only [ite_false, Bool.false_eq_true, if_false, LockResult.ok.injEq] at h
        obtain ⟨h1, h2, h3, h4, h5, h6⟩ := h
        refine ⟨rfl, rfl, rfl, rfl, rfl, b, rest, f, rfl, ?_, ?_, ?_, ?_, ?_⟩
        · rw [hdr, h2, h3]
        · exact h1.symm
        · exact h4.symm
        · exact h5.symm
        · exact h6.symm

/-- A successful `usbcam_init` leaves the device open, the pool mapped,
streaming on, and no frame locked. -/
theorem usbcam_init_ok_flags {st : UsbcamState} {opt : usbcam_opt_t} {drv : DriverInit}
    {st' : UsbcamState} (h : usbcam_init st opt drv = .ok st') :
    st'.has_fd = true ∧ st'.has_mmap = true ∧ st'.has_stream = true ∧
    st'.has_dqbuf = false := by
  unfold usbcam_init at h
  cases hc : usbcam_cleanup st with
  | error e => rw [hc] at h; cases h
  | ok out =>
    obtain ⟨st0, steps⟩ := out
    rw [hc] at h
    have h0 := usbcam_cleanup_flags hc
    simp only [] at h
    repeat' split at h
    all_goals cases h
    all_goals simp_all

/-- The quiescent start state satisfies the system invariant. -/
theorem sysInv_start : SysInv Sys.start := by
  refine ⟨?_, ?_, ?_, ?_, ?_⟩ <;> simp [Sys.start, usbcam_initial]

/-- Every step of the system preserves the invariant. -/
theorem sysInv_step {s s' : Sys} {op : Op} (hinv : SysInv s) (h : s.step op = some s') :
    SysInv s' := by
  obtain ⟨hi1, hi2, hi3, hi4, hi5⟩ := hinv
  cases op with
  | opInit opt drv =>
    simp only [Sys.step] at h
    cases hini : usbcam_init s.cam opt drv with
    | error e => rw [hini] at h; cases h
    | ok st1 =>
      rw [hini] at h
      simp only [Option.some.injEq] at h
      subst h
      have hf := usbcam_init_ok_flags hini
      refine ⟨?_, ?_, ?_, ?_, ?_⟩ <;>
        simp [hf.1, hf.2.1, hf.2.2.1, hf.2.2.2]
  | opCleanup =>
    simp only [Sys.step] at h
    cases hcl : usbcam_cleanup s.cam with
    | error e => rw [hcl] at h; cases h
    | ok out =>
      obtain ⟨st1, steps⟩ := out
      rw [hcl] at h
      simp only [Option.some.injEq] at h
      subst h
      have hf := usbcam_cleanup_flags hcl
      refine ⟨by simp [hf.1], by simp [hf.2.2.1], by simp [hf.2.1], ?_, by simp⟩
      rw [hf.1]
      simp only [Bool.false_eq_true, if_false]
      cases hdq : s.cam.has_dqbuf with
      | true =>
        rw [hdq] at hi4
        simp only [if_true] at hi4
        simp [hdq, hi4]
      | false =>
        rw [hdq] at hi4
        simp only [Bool.false_eq_true, if_false] at hi4
        simp [hdq, hi4]
  | opLock polls tn =>
    simp only [Sys.step] at h
    cases hlk : usbcam_lock s.cam s.ready polls tn with
    | fatal msg => rw [hlk] at h; cases h
    | blocked => rw [hlk] at h; cases h
    | nullDeref => rw [hlk] at h; cases h
    | ok st1 rq rm d sz ts =>
      rw [hlk] at h
      simp only [Option.some.injEq] at h
      subst h
      obtain ⟨hdq, hfd, hmm, hst, htn, b, rest, f, hready, hdr, hst1, hd, hsz, hts⟩ :=
        usbcam_lock_ok_inv hlk
      rw [hdq] at hi4
      simp only [if_false, Bool.false_eq_true] at hi4
      subst hst1
      refine ⟨?_, ?_, ?_, ?_, ?_⟩
      · intro _; simp [hst]
      · intro _; simp [hmm]
      · intro _; simp [hfd]
      · simp [hi4]
      · intro c hc
        have hcr : c ∈ s.ready := by
          rw [hready]
          exact List.mem_cons_of_mem b (usbcam_drain_remaining hdr c hc)
        exact hi5 c hcr
  | opUnlock =>
    simp only [Sys.step] at h
    cases hdq : s.cam.has_dqbuf with
    | false =>
      rw [usbcam_unlock, hdq] at h
      simp only [Bool.false_eq_true, if_false, hdq, Option.some.injEq] at h
      subst h
      exact ⟨hi1, hi2, hi3, by simpa [hdq] using hi4, hi5⟩
    | true =>
      have hfd : s.cam.has_fd = true := hi3 (hi2 (hi1 hdq))
      rw [usbcam_unlock, hdq] at h
      simp only [if_true, usbcam_ioctl_check, hfd, Option.some.injEq, hdq] at h
      subst h
      rw [hdq] at hi4
      simp only [if_true] at hi4
      refine ⟨?_, ?_, ?_, ?_, ?_⟩
      · simp
      · intro hs; exact hi2 hs
      · intro hm; rfl
      · simp [hi4]
      · exact hi5
  | frameReady b =>
    simp only [Sys.step] at h
    split at h
    · rename_i hcond
      simp only [Option.some.injEq] at h
      subst h
      refine ⟨hi1, hi2, hi3, hi4, ?_⟩
      intro c hc
      rcases List.mem_append.1 hc with hc' | hc'
      · exact hi5 c hc'
      · rw [List.mem_singleton.1 hc']
        exact ⟨hcond.2.1, hcond.2.2⟩
    · cases h

/-- Running any event list preserves the invariant. -/
theorem sysInv_run {s s' : Sys} {ops : List Op} (hinv : SysInv s)
    (h : Sys.run s ops = some s') : SysInv s' := by
  induction ops generalizing s with
  | nil =>
    simp [Sys.run] at h
    subst h
    exact hinv
  | cons op ops ih =>
    rw [Sys.run.eq_def] at h
    simp only [] at h
    cases hst : s.step op with
    | none => rw [hst] at h; cases h
    | some s1 =>
      rw [hst] at h
      exact ih (sysInv_step hinv hst) h

/-- Every reachable system state satisfies the invariant. -/
theorem reachable_inv {s : Sys} (h : Sys.Reachable s) : SysInv s := by
  obtain ⟨ops, hops⟩ := h
  exact sysInv_run sysInv_start hops

/-- On a fully quiescent state (all four flags clear) `usbcam_cleanup`
performs no step and returns the state unchanged. -/
theorem usbcam_cleanup_quiescent (st : UsbcamState)
    (h1 : st.has_dqbuf = false) (h2 : st.has_mmap = false)
    (h3 : st.has_stream = false) (h4 : st.has_fd = false) :
    usbcam_cleanup st = .ok (st, []) := by
  obtain ⟨mm, dq, fd, str, fdv, nb, bs, bl, dqb⟩ := st
  simp only at h1 h2 h3 h4
  subst h1 h2 h3 h4
  rfl

/-!
## Claims
-/

/-- C1 (Drain-to-latest): from any state satisfying the `usbcam_lock`
preconditions, with N ≥ 1 buffers completed and queued for dequeue
before the call and a truthful zero-timeout `select` (it reports data
pending exactly while completed buffers remain, then reports nothing
pending), `usbcam_lock` returns the pool base address, used-byte count
and timestamp of the Nth (most recently completed) buffer, requeues
exactly the first N−1 completed buffers to the driver, and records the
Nth buffer as the locked one; none of the first N−1 buffers appears in
any output. -/
theorem C1_drain_to_latest (st : UsbcamState) (bs : List V4l2Buf)
    (h1 : st.has_dqbuf = false) (h2 : st.has_fd = true) (h3 : st.has_mmap = true)
    (h4 : st.has_stream = true) (hne : bs ≠ []) :
    usbcam_lock st bs (List.replicate (bs.length - 1) 1 ++ [0]) false =
      .ok { st with dqbuf := bs.getLastD default, has_dqbuf := true }
          bs.dropLast []
          (st.buffer_start.getD (bs.getLastD default).index 0)
          (bs.getLastD default).bytesused (bs.getLastD default).timestamp := by
  cases bs with
  | nil => exact absurd rfl hne
  | cons b rest =>
    simp only [usbcam_lock, h1, h2, h3, h4, Bool.not_true, Bool.false_eq_true, if_false,
      List.length_cons, Nat.add_sub_cancel]
    rw [usbcam_drain_truthful b rest []]
    simp only [List.getLastD_cons, List.reverse_nil, List.nil_append, Bool.false_eq_true,
      if_false, ite_false]

/-- Witness for C1: locking from the example two-frame state returns
the second (latest) frame and requeues the first. -/
theorem C1_drain_to_latest_witness :
    usbcam_lock wInitCam [wBuf0, wBuf1]
        (List.replicate ([wBuf0, wBuf1].length - 1) 1 ++ [0]) false =
      .ok { wInitCam with dqbuf := [wBuf0, wBuf1].getLastD default, has_dqbuf := true }
          [wBuf0, wBuf1].dropLast []
          (wInitCam.buffer_start.getD ([wBuf0, wBuf1].getLastD default).index 0)
          ([wBuf0, wBuf1].getLastD default).bytesused
          ([wBuf0, wBuf1].getLastD default).timestamp :=
  C1_drain_to_latest wInitCam [wBuf0, wBuf1] rfl rfl rfl rfl (by decide)

/-- C2 (Pool bounds): in every reachable state, a successful
`usbcam_lock` returns as data pointer the mapped base address recorded
for the winning buffer's pool slot — a slot below the pool's buffer
count — and a size not exceeding the mapped region length recorded for
that slot. -/
theorem C2_lock_within_pool (s : Sys) (polls : List Int) (st' : UsbcamState)
    (req rem : List V4l2Buf) (d sz : Nat) (ts : Timeval)
    (hreach : Sys.Reachable s)
    (h : usbcam_lock s.cam s.ready polls false = .ok st' req rem d sz ts) :
    st'.dqbuf.index < s.cam.buffers ∧
    d = s.cam.buffer_start.getD st'.dqbuf.index 0 ∧
    sz ≤ s.cam.buffer_length.getD st'.dqbuf.index 0 := by
  obtain ⟨hi1, hi2, hi3, hi4, hi5⟩ := reachable_inv hreach
  obtain ⟨hdq, hfd, hmm, hst, htn, b, rest, f, hready, hdr, hst1, hd, hsz, hts⟩ :=
    usbcam_lock_ok_inv h
  have hf : f ∈ s.ready := by
    rcases usbcam_drain_mem hdr with h' | h'
    · rw [hready, h']; exact List.mem_cons_self _ _
    · rw [hready]; exact List.mem_cons_of_mem b h'
  have hcon := hi5 f hf
  subst hst1
  exact ⟨hcon.1, hd, by rw [hsz]; exact hcon.2⟩

/-- Witness for C2: the example lock from the reachable two-frame
state stays within the pool. -/
theorem C2_lock_within_pool_witness :
    wLock0Cam.dqbuf.index < wReady.cam.buffers ∧
    4096 = wReady.cam.buffer_start.getD wLock0Cam.dqbuf.index 0 ∧
    50 ≤ wReady.cam.buffer_length.getD wLock0Cam.dqbuf.index 0 :=
  C2_lock_within_pool wReady [] wLock0Cam [] [wBuf1] 4096 50 ⟨5, 0⟩
    ⟨[Op.opInit wOpt wDrv, Op.frameReady wBuf0, Op.frameReady wBuf1], by decide⟩
    (by decide)

/-- Counterexample to C3: a concrete acquire in which the zero-timeout
`select` of the drain loop reports an error (-1): the call does NOT
propagate a fatal error — the `while (r == 1)` loop merely exits and
the currently held buffer is returned as a perfectly normal result
(distinct from every `LockResult.fatal` outcome). -/
theorem C3_counterexample :
    usbcam_lock wInitCam [wBuf0] [-1] false =
      .ok wLock0Cam [] [] 4096 50 ⟨5, 0⟩ := by decide

/-- C3 as amended: if the zero-timeout `select` reports an error (-1)
at any iteration of the drain loop — after `k ≥ 0` successful drain
steps, each of which requeued the held buffer and dequeued the next —
`usbcam_lock` treats the error exactly like "no data pending": it
leaves the loop and returns the currently held buffer (the `(k+1)`-st
completed one) as a normal result (pointer, length and timestamp of
that buffer), having requeued exactly the first `k` completed buffers;
no error is propagated. -/
theorem C3_select_error_returns_held (st : UsbcamState) (bs : List V4l2Buf)
    (k : Nat) (ps : List Int)
    (h1 : st.has_dqbuf = false) (h2 : st.has_fd = true) (h3 : st.has_mmap = true)
    (h4 : st.has_stream = true) (hk : k < bs.length) :
    usbcam_lock st bs (List.replicate k 1 ++ (-1 :: ps)) false =
      .ok { st with dqbuf := bs.getD k default, has_dqbuf := true }
          (bs.take k) (bs.drop (k + 1))
          (st.buffer_start.getD (bs.getD k default).index 0)
          (bs.getD k default).bytesused (bs.getD k default).timestamp := by
  cases bs with
  | nil => simp at hk
  | cons b rest =>
    have hk' : k ≤ rest.length := by
      simp only [List.length_cons] at hk
      omega
    simp only [usbcam_lock, h1, h2, h3, h4, Bool.not_true, Bool.false_eq_true, if_false]
    rw [usbcam_drain_error ps k b rest [] hk']
    simp only [List.reverse_nil, List.nil_append, Bool.false_eq_true, if_false,
      List.drop_succ_cons, ite_false]

/-- Witness for the amended C3: with select succeeding once and then
erroring (polls `[1, -1]`), the lock requeues the first completed
buffer and returns the second as a normal result. -/
theorem C3_select_error_returns_held_witness :
    usbcam_lock wInitCam [wBuf0, wBuf1] (List.replicate 1 1 ++ (-1 :: [])) false =
      .ok { wInitCam with dqbuf := [wBuf0, wBuf1].getD 1 default, has_dqbuf := true }
          ([wBuf0, wBuf1].take 1) ([wBuf0, wBuf1].drop 2)
          (wInitCam.buffer_start.getD ([wBuf0, wBuf1].getD 1 default).index 0)
          ([wBuf0, wBuf1].getD 1 default).bytesused
          ([wBuf0, wBuf1].getD 1 default).timestamp :=
  C3_select_error_returns_held wInitCam [wBuf0, wBuf1] 1 [] rfl rfl rfl rfl (by decide)

/-- C4 (Teardown never fails): from every reachable session state —
before init, after a complete init, after cleanup, or with a frame
still locked — `usbcam_cleanup` completes without any fatal outcome
(the only program-state check it can hit, the open-device assert inside
`usbcam_ioctl` guarding the requeue and stream-off ioctls, is
guaranteed by the lifecycle-flag invariant). -/
theorem C4_cleanup_never_fails (s : Sys) (hreach : Sys.Reachable s) :
    cleanupSucceeds s.cam = true := by
  obtain ⟨hi1, hi2, hi3, _, _⟩ := reachable_inv hreach
  unfold cleanupSucceeds
  rw [usbcam_cleanup_eq s.cam (fun h => hi3 (hi2 (hi1 h))) (fun h => hi3 (hi2 h))]

/-- Witness for C4: cleanup succeeds from a reachable state with a
frame still locked. -/
theorem C4_cleanup_never_fails_witness : cleanupSucceeds wLocked0.cam = true :=
  C4_cleanup_never_fails wLocked0
    ⟨[Op.opInit wOpt wDrv, Op.frameReady wBuf0, Op.frameReady wBuf1,
      Op.opLock [] false], by decide⟩

/-- C5 (Teardown idempotent and order-safe): (1) for every
configuration and driver response, initialize immediately followed by
teardown yields the same observable session state as never having
initialized; (2) from any state, a successful teardown is a fixed
point: running teardown again succeeds and changes nothing at all, so
zero, one, or many consecutive teardowns yield the same quiescent
state. -/
theorem C5_teardown_idempotent :
    (∀ (opt : usbcam_opt_t) (drv : DriverInit) (s' : Sys),
        Sys.run Sys.start [Op.opInit opt drv, Op.opCleanup] = some s' →
        Sys.observable s' = Sys.observable Sys.start) ∧
    (∀ s s₁ : Sys, Sys.step s Op.opCleanup = some s₁ →
        Sys.step s₁ Op.opCleanup = some s₁) := by
  constructor
  · intro opt drv s' h
    rw [Sys.run.eq_def] at h
    simp only [] at h
    cases hst : Sys.step Sys.start (Op.opInit opt drv) with
    | none => rw [hst] at h; cases h
    | some s1 =>
      rw [hst] at h
      simp only [] at h
      rw [Sys.run.eq_def] at h
      simp only [] at h
      cases hst2 : Sys.step s1 Op.opCleanup with
      | none => rw [hst2] at h; cases h
      | some s2 =>
        rw [hst2] at h
        simp only [] at h
        rw [Sys.run.eq_def] at h
        simp only [Option.some.injEq] at h
        subst h
        simp only [Sys.step] at hst
        cases hini : usbcam_init Sys.start.cam opt drv with
        | error e => rw [hini] at hst; cases hst
        | ok stI =>
          rw [hini] at hst
          simp only [Option.some.injEq] at hst
          subst hst
          simp only [Sys.step] at hst2
          cases hcl : usbcam_cleanup stI with
          | error e => rw [hcl] at hst2; cases hst2
          | ok out =>
            obtain ⟨stC, tr⟩ := out
            rw [hcl] at hst2
            simp only [Option.some.injEq] at hst2
            subst hst2
            have hfl := usbcam_cleanup_flags hcl
            simp [Sys.observable, Sys.start, usbcam_initial,
              hfl.1, hfl.2.1, hfl.2.2.1, hfl.2.2.2]
  · intro s s₁ h
    simp only [Sys.step] at h ⊢
    cases hcl : usbcam_cleanup s.cam with
    | error e => rw [hcl] at h; cases h
    | ok out =>
      obtain ⟨stC, tr⟩ := out
      rw [hcl] at h
      simp only [Option.some.injEq] at h
      subst h
      have hfl := usbcam_cleanup_flags hcl
      rw [usbcam_cleanup_quiescent stC hfl.1 hfl.2.1 hfl.2.2.1 hfl.2.2.2]
      simp [hfl.1]

/-- Witness for C5: the example init followed by cleanup is observably
the fresh state, and cleanup from the fresh state is a fixed point. -/
theorem C5_teardown_idempotent_witness :
    Sys.observable wAfterInitCleanup = Sys.observable Sys.start ∧
    Sys.step Sys.start Op.opCleanup = some Sys.start :=
  ⟨C5_teardown_idempotent.1 wOpt wDrv wAfterInitCleanup (by decide),
   C5_teardown_idempotent.2 Sys.start Sys.start (by decide)⟩

/-- C6 (Cleanup unwind order): on any state whose flags respect the
lifecycle (locked or streaming implies open), `usbcam_cleanup`
performs, in execution order, requeue of the outstanding locked buffer,
unmapping of the pool, disabling of streaming, and closing of the
device; each step appears in the trace if and only if its flag is set,
every executed step clears its flag (all four are clear afterwards),
and nothing else in the state changes. -/
theorem C6_cleanup_unwind_order (st : UsbcamState)
    (h1 : st.has_dqbuf = true → st.has_fd = true)
    (h2 : st.has_stream = true → st.has_fd = true) :
    usbcam_cleanup st = .ok
      ({ st with has_dqbuf := false, has_mmap := false,
                 has_stream := false, has_fd := false },
        (if st.has_dqbuf then [CleanupStep.requeue] else []) ++
        (if st.has_mmap then [CleanupStep.unmapPool] else []) ++
        (if st.has_stream then [CleanupStep.streamOff] else []) ++
        (if st.has_fd then [CleanupStep.closeFd] else [])) :=
  usbcam_cleanup_eq st h1 h2

/-- Witness for C6: cleanup from a fully-active locked state performs
all four steps in order. -/
theorem C6_cleanup_unwind_order_witness :
    usbcam_cleanup wLock1Cam = .ok
      ({ wLock1Cam with has_dqbuf := false, has_mmap := false,
                        has_stream := false, has_fd := false },
        (if wLock1Cam.has_dqbuf then [CleanupStep.requeue] else []) ++
        (if wLock1Cam.has_mmap then [CleanupStep.unmapPool] else []) ++
        (if wLock1Cam.has_stream then [CleanupStep.streamOff] else []) ++
        (if wLock1Cam.has_fd then [CleanupStep.closeFd] else [])) :=
  C6_cleanup_unwind_order wLock1Cam (fun _ => rfl) (fun _ => rfl)

/-- C7 (Lock preconditions): `usbcam_lock` fails with the fatal
precondition violation of the first failed check — already locked,
device not open, pool not mapped, streaming not begun, in source
order — for every completed-buffer queue and poll sequence, i.e.
before any dequeue is performed; a double acquire is reported fatally,
never queued. -/
theorem C7_lock_preconditions (st : UsbcamState) (ready : List V4l2Buf)
    (polls : List Int) (tn : Bool) :
    (st.has_dqbuf = true →
      usbcam_lock st ready polls tn = .fatal "You forgot to unlock the previous frame") ∧
    (st.has_dqbuf = false → st.has_fd = false →
      usbcam_lock st ready polls tn = .fatal "Camera device not open") ∧
    (st.has_dqbuf = false → st.has_fd = true → st.has_mmap = false →
      usbcam_lock st ready polls tn = .fatal "Buffers not allocated") ∧
    (st.has_dqbuf = false → st.has_fd = true → st.has_mmap = true →
      st.has_stream = false →
      usbcam_lock st ready polls tn = .fatal "Stream not begun") := by
  refine ⟨fun h => ?_, fun ha hb => ?_, fun ha hb hc => ?_, fun ha hb hc hd => ?_⟩ <;>
    simp [usbcam_lock, *]

/-- Witness for C7: a double acquire from the locked example state is
rejected fatally. -/
theorem C7_lock_preconditions_witness :
    usbcam_lock wLock1Cam [wBuf0] [] false =
      .fatal "You forgot to unlock the previous frame" :=
  (C7_lock_preconditions wLock1Cam [wBuf0] [] false).1 rfl

/-- C8 (Unlock with nothing locked is a no-op): when no frame is
locked, `usbcam_unlock` returns the entire program state unchanged
(all flags, the file descriptor, the buffer count, both buffer arrays
and the dqbuf record), never fails, and at the system level the step
is the identity — so it is safe to repeat any number of times and
cannot affect the result of any subsequent `usbcam_lock` call, which
runs from the identical state. -/
theorem C8_unlock_noop (s : Sys) (h : s.cam.has_dqbuf = false) :
    usbcam_unlock s.cam = .ok s.cam ∧ Sys.step s Op.opUnlock = some s := by
  have hu : usbcam_unlock s.cam = .ok s.cam := by
    rw [usbcam_unlock, h]
    simp
  refine ⟨hu, ?_⟩
  simp only [Sys.step]
  rw [hu]
  simp [h]

/-- Witness for C8: unlock on the fresh state is the identity. -/
theorem C8_unlock_noop_witness :
    usbcam_unlock Sys.start.cam = .ok Sys.start.cam ∧
    Sys.step Sys.start Op.opUnlock = some Sys.start :=
  C8_unlock_noop Sys.start rfl

/-- C9 (Single outstanding lock): in every reachable state at most one
buffer is consumer-owned; every successful `usbcam_lock` starts from
zero consumer-owned buffers and ends with exactly one (the recorded
`usbcam_dqbuf`); and both `usbcam_unlock` and `usbcam_cleanup` end
with zero consumer-owned buffers. -/
theorem C9_single_lock (s : Sys) (hreach : Sys.Reachable s) :
    s.owned.length ≤ 1 ∧
    (∀ (polls : List Int) (tn : Bool) (s' : Sys),
        Sys.step s (Op.opLock polls tn) = some s' →
        s.owned = [] ∧ s'.owned = [s'.cam.dqbuf]) ∧
    (∀ s' : Sys, Sys.step s Op.opUnlock = some s' → s'.owned = []) ∧
    (∀ s' : Sys, Sys.step s Op.opCleanup = some s' → s'.owned = []) := by
  obtain ⟨hi1, hi2, hi3, hi4, hi5⟩ := reachable_inv hreach
  refine ⟨?_, ?_, ?_, ?_⟩
  · cases hdq : s.cam.has_dqbuf with
    | true => rw [hdq] at hi4; simp only [if_true] at hi4; simp [hi4]
    | false =>
      rw [hdq] at hi4
      simp only [Bool.false_eq_true, if_false] at hi4
      simp [hi4]
  · intro polls tn s' h
    simp only [Sys.step] at h
    cases hlk : usbcam_lock s.cam s.ready polls tn with
    | fatal msg => rw [hlk] at h; cases h
    | blocked => rw [hlk] at h; cases h
    | nullDeref => rw [hlk] at h; cases h
    | ok st1 rq rm d sz ts =>
      rw [hlk] at h
      simp only [Option.some.injEq] at h
      subst h
      obtain ⟨hdq, -, -, -, -, -⟩ := usbcam_lock_ok_inv hlk
      rw [hdq] at hi4
      simp only [Bool.false_eq_true, if_false] at hi4
      exact ⟨hi4, by simp [hi4]⟩
  · intro s' h
    simp only [Sys.step] at h
    cases hdq : s.cam.has_dqbuf with
    | false =>
      rw [usbcam_unlock, hdq] at h
      simp only [Bool.false_eq_true, if_false, hdq, Option.some.injEq] at h
      subst h
      rw [hdq] at hi4
      simpa using hi4
    | true =>
      have hfd : s.cam.has_fd = true := hi3 (hi2 (hi1 hdq))
      rw [usbcam_unlock, hdq] at h
      simp only [if_true, usbcam_ioctl_check, hfd, Option.some.injEq, hdq] at h
      subst h
      rw [hdq] at hi4
      simp only [if_true] at hi4
      simp [hi4]
  · intro s' h
    simp only [Sys.step] at h
    cases hcl : usbcam_cleanup s.cam with
    | error e => rw [hcl] at h; cases h
    | ok out =>
      obtain ⟨stC, tr⟩ := out
      rw [hcl] at h
      simp only [Option.some.injEq] at h
      subst h
      cases hdq : s.cam.has_dqbuf with
      | true =>
        rw [hdq] at hi4
        simp only [if_true] at hi4
        simp [hdq, hi4]
      | false =>
        rw [hdq] at hi4
        simp only [Bool.false_eq_true, if_false] at hi4
        simp [hdq, hi4]

/-- Witness for C9: the reachable two-frame state owns nothing, and
the lock step from it yields exactly one consumer-owned buffer. -/
theorem C9_single_lock_witness :
    wReady.owned.length ≤ 1 ∧
    (wReady.owned = [] ∧ wLocked0.owned = [wLocked0.cam.dqbuf]) :=
  ⟨(C9_single_lock wReady
      ⟨[Op.opInit wOpt wDrv, Op.frameReady wBuf0, Op.frameReady wBuf1], by decide⟩).1,
   (C9_single_lock wReady
      ⟨[Op.opInit wOpt wDrv, Op.frameReady wBuf0, Op.frameReady wBuf1], by decide⟩).2.1
     [] false wLocked0 (by decide)⟩

/-- C10 (Unconditional timestamp write): after the preconditions pass
and the drain finishes, `usbcam_lock` writes through the timestamp
out-parameter unconditionally (line 264, before `*data` and `*size`);
since the public declaration defaults that parameter to null, a call
omitting the timestamp argument (or passing null) dereferences a null
pointer instead of skipping the timestamp output, while a call with a
valid pointer receives the winning buffer's capture timestamp. -/
theorem C10_null_timestamp (st : UsbcamState) (b : V4l2Buf) (rest : List V4l2Buf)
    (polls : List Int) (f : V4l2Buf) (req rem : List V4l2Buf)
    (h1 : st.has_dqbuf = false) (h2 : st.has_fd = true) (h3 : st.has_mmap = true)
    (h4 : st.has_stream = true)
    (hdr : usbcam_drain b rest polls [] = some (f, req, rem)) :
    usbcam_lock st (b :: rest) polls true = .nullDeref ∧
    usbcam_lock st (b :: rest) polls false =
      .ok { st with dqbuf := f, has_dqbuf := true } req rem
          (st.buffer_start.getD f.index 0) f.bytesused f.timestamp := by
  constructor <;> simp [usbcam_lock, h1, h2, h3, h4, hdr]

/-- Witness for C10: the example one-frame lock crashes on the null
write when the timestamp argument is omitted, and returns the frame
when a pointer is passed. -/
theorem C10_null_timestamp_witness :
    usbcam_lock wInitCam (wBuf0 :: []) [] true = .nullDeref ∧
    usbcam_lock wInitCam (wBuf0 :: []) [] false =
      .ok { wInitCam with dqbuf := wBuf0, has_dqbuf := true } [] []
          (wInitCam.buffer_start.getD wBuf0.index 0) wBuf0.bytesused wBuf0.timestamp :=
  C10_null_timestamp wInitCam wBuf0 [] [] wBuf0 [] [] rfl rfl rfl rfl rfl
